import Mathlib

/-!
Shallow embedding of the optimistic-reconciliation core of the
remix-todomvc application (source file `src/app/routes/todos.tsx`).

The embedding models:
  * the todo item record as loaded by `loader` (id, title, complete, createdAt);
  * form data and fetcher state as consumed by `canBeOptimistic` and the
    reconciliation passes in the `TodosRoute` component body;
  * the reconciliation pipeline itself: the clear-completed pass, the
    toggle-all pass, the per-item delete and toggle passes, the optimistic
    create synthesis (step 6), and the stable `createdAt` sort producing
    `todosToRender`;
  * the per-item view logic of `ListItem` (isDeleting, optimisticComplete,
    shouldRender, and the `disabled` props of the three controls);
  * the server actions `createTodo` and `updateTodo`, with the store
    insert/update calls reified as data so theorems can state whether the
    store was reached.

Timestamps: the source stores `createdAt` as an ISO string and compares
`new Date(a.createdAt)` values; we model a timestamp as a `Nat` (epoch
milliseconds).  A form-data `createdAt` string is classified by how
`new Date(s).getTime()` treats it: the empty string, a string parsing to a
valid timestamp, or an unparseable string (NaN).
-/

namespace TodoApp

/-- A todo item as selected by `loader`:
`{ id, complete, title, createdAt }`. -/
structure Todo where
  id : String
  title : String
  complete : Bool
  createdAt : Nat
deriving Repr, DecidableEq

/-- Classification of a form-data `createdAt` string by the behavior of
`new Date(s)`: empty string (falsy, skipped by `validateCreatedAt`), a
string parsing to a valid timestamp, or an unparseable string. -/
inductive DateStr where
  | empty : DateStr
  | valid : Nat → DateStr
  | invalid : DateStr
deriving Repr, DecidableEq

/-- The fields the route reads from a submitted `FormData` via
`formData.get(...)`; `none` models a `null` return (field absent). -/
structure FormData where
  intent : Option String
  todoId : Option String
  complete : Option String
  title : Option String
  id : Option String
  createdAt : Option DateStr
deriving Repr, DecidableEq

/-- The `fetcher.state` values relevant to `canBeOptimistic`. -/
inductive FetcherState where
  | submitting : FetcherState
  | loading : FetcherState
  | idle : FetcherState
deriving Repr, DecidableEq

/-- The shape of `fetcher.data` the route inspects: absent, a success
response, or an error response with its message. -/
inductive FetcherData where
  | missing : FetcherData
  | success : FetcherData
  | failure : String → FetcherData
deriving Repr, DecidableEq

/-- Models `fetcher.data?.type === "success"`. -/
def FetcherData.isSuccess : FetcherData → Bool
  | .success => true
  | _ => false

/-- A fetcher as the route sees it: its state, its last response data, and
the form data of its current submission (if any). -/
structure Fetcher where
  state : FetcherState
  data : FetcherData
  submission : Option FormData
deriving Repr, DecidableEq

/-- Source: `canBeOptimistic(fetcher)` — true while submitting, or while
loading with a success response not yet reflected in the loader data. -/
def canBeOptimistic (f : Fetcher) : Bool :=
  f.state == .submitting || (f.state == .loading && f.data.isSuccess)

/-- Models `fetcher.submission?.formData.get("intent")`. -/
def fetcherIntent (f : Fetcher) : Option String :=
  f.submission.bind FormData.intent

/-- Models `fetcher.submission?.formData.get("todoId")`. -/
def fetcherTodoId (f : Fetcher) : Option String :=
  f.submission.bind FormData.todoId

/-- Models `fetcher.submission?.formData.get("complete") === "true"`. -/
def fetcherComplete (f : Fetcher) : Bool :=
  f.submission.bind FormData.complete == some "true"

/-- Models `fetcher.submission?.formData.get("id")`. -/
def fetcherId (f : Fetcher) : Option String :=
  f.submission.bind FormData.id

/-- Source: `validateNewTodoTitle(title)` — `title ? null : "Todo title
required"` (a truthiness check: only the empty string fails). -/
def validateNewTodoTitle (title : String) : Option String :=
  if title = "" then some "Todo title required" else none

/-- Source: `validateId(id)` — `id ? null : "Todo id required"`. -/
def validateId (id : String) : Option String :=
  if id = "" then some "Todo id required" else none

/-- Source: `validateCreatedAt(createdAt)` — accepts empty, rejects a
string whose `new Date(...)` is NaN. -/
def validateCreatedAt : DateStr → Option String
  | .empty => none
  | .valid _ => none
  | .invalid => some "Todo createdAt date is invalid"

/-- Models `new Date(createdAt).toISOString()` as used to stamp an
optimistic create (step 6).  The source only reaches this call after
`validateCreatedAt` passes; for the strings JS could not convert we pick
timestamp 0 (no claim exercises that corner). -/
def parseDate : DateStr → Nat
  | .valid t => t
  | .empty => 0
  | .invalid => 0

/-! ### Reconciliation pipeline of `TodosRoute` -/

/-- Step 2 of the pipeline: if the clear-completed fetcher is optimistic,
drop every completed item (`optimisticTodos.filter((todo) => !todo.complete)`). -/
def applyClear (clearFetcher : Fetcher) (todos : List Todo) : List Todo :=
  if canBeOptimistic clearFetcher then todos.filter (fun t => !t.complete) else todos

/-- The `togglingComplete` value: defined only while the toggle-all fetcher
is optimistic, in which case it is `formData.get("complete") === "true"`. -/
def togglingComplete (toggleAllFetcher : Fetcher) : Option Bool :=
  if canBeOptimistic toggleAllFetcher then some (fetcherComplete toggleAllFetcher)
  else none

/-- Step 3: if `togglingComplete` is defined, set `complete` on every item
to it (`optimisticTodos.map((todo) => ({...todo, complete: Boolean(togglingComplete)}))`). -/
def applyToggleAll (tc : Option Bool) (todos : List Todo) : List Todo :=
  match tc with
  | some b => todos.map (fun t => { t with complete := b })
  | none => todos

/-- `optimisticFetchers = allFetchers.filter((f) => canBeOptimistic(f))`. -/
def optimisticFetchers (fs : List Fetcher) : List Fetcher :=
  fs.filter canBeOptimistic

/-- The per-intent batch filter applied to `optimisticFetchers`. -/
def intentFetchers (name : String) (fs : List Fetcher) : List Fetcher :=
  (optimisticFetchers fs).filter (fun f => fetcherIntent f == some name)

/-- `createFetchers`. -/
def createFetchers (fs : List Fetcher) : List Fetcher :=
  intentFetchers "createTodo" fs

/-- `deleteFetchers`. -/
def deleteFetchers (fs : List Fetcher) : List Fetcher :=
  intentFetchers "deleteTodo" fs

/-- `toggleFetchers`. -/
def toggleFetchers (fs : List Fetcher) : List Fetcher :=
  intentFetchers "toggleTodo" fs

/-- Step 4: the delete loop — for each delete fetcher, keep only the todos
whose id differs from the fetcher target
(`todo.id !== fetcher.submission?.formData.get("todoId")`). -/
def applyDeletes (fs : List Fetcher) (todos : List Todo) : List Todo :=
  fs.foldl (fun acc f => acc.filter (fun t => !(some t.id == fetcherTodoId f))) todos

/-- One iteration of the toggle loop of step 5: map over the list, setting
`complete` on the matching id. -/
def applyToggle (f : Fetcher) (todos : List Todo) : List Todo :=
  todos.map (fun t =>
    if some t.id == fetcherTodoId f then { t with complete := fetcherComplete f } else t)

/-- Step 5: the toggle loop over all optimistic toggle fetchers, in the
order they appear in `useFetchers()` (registration order). -/
def applyToggles (fs : List Fetcher) (todos : List Todo) : List Todo :=
  fs.foldl (fun acc f => applyToggle f acc) todos

/-- Step 6 body for a single create fetcher: the guarded synthesis of an
optimistic todo.  Mirrors the conjunction in the source: the id is not in
the confirmed list, the id / title / createdAt fields are present strings
and pass their validators; on success builds
`{ id, title, complete: false, createdAt: new Date(createdAt).toISOString() }`. -/
def synthesizeCreate (todos : List Todo) (f : Fetcher) : Option Todo :=
  match f.submission.bind FormData.id, f.submission.bind FormData.title,
        f.submission.bind FormData.createdAt with
  | some id, some title, some createdAt =>
    if todos.all (fun t => t.id ≠ id) && (validateId id).isNone &&
        (validateNewTodoTitle title).isNone && (validateCreatedAt createdAt).isNone then
      some { id := id, title := title, complete := false, createdAt := parseDate createdAt }
    else none
  | _, _, _ => none

/-- Step 6: `optimisticNewTodos`, one entry per create fetcher whose guard
passes, in fetcher order. -/
def optimisticNewTodos (todos : List Todo) (fs : List Fetcher) : List Todo :=
  (createFetchers fs).filterMap (synthesizeCreate todos)

/-- The full `optimisticTodos` value at the end of the component body:
confirmed list, clear pass, toggle-all pass, delete loop, toggle loop, then
the optimistic creates pushed at the end. -/
def optimisticTodos (todos : List Todo) (clearFetcher toggleAllFetcher : Fetcher)
    (fs : List Fetcher) : List Todo :=
  applyToggles (toggleFetchers fs)
      (applyDeletes (deleteFetchers fs)
        (applyToggleAll (togglingComplete toggleAllFetcher)
          (applyClear clearFetcher todos)))
    ++ optimisticNewTodos todos fs

/-- Stable insertion by ascending `createdAt`: an element is placed before
the first element whose timestamp it does not exceed, so equal timestamps
keep their original relative order.  This models the stable
`Array.prototype.sort` with the comparator
`aCreated < bCreated ? -1 : aCreated > bCreated ? 1 : 0`. -/
def insertByCreatedAt (x : Todo) : List Todo → List Todo
  | [] => [x]
  | y :: ys =>
    if x.createdAt ≤ y.createdAt then x :: y :: ys else y :: insertByCreatedAt x ys

/-- Stable sort by ascending `createdAt` (insertion sort). -/
def sortByCreatedAt (l : List Todo) : List Todo :=
  l.foldr insertByCreatedAt []

/-- `todosToRender = [...todos, ...optimisticNewTodos].sort(byCreatedAt)`. -/
def todosToRender (todos : List Todo) (fs : List Fetcher) : List Todo :=
  sortByCreatedAt (todos ++ optimisticNewTodos todos fs)

/-- A fetcher that has done nothing: idle, no data, no submission. -/
def idleFetcher : Fetcher :=
  { state := .idle, data := .missing, submission := none }

/-! ### Per-item view logic of `ListItem` -/

/-- The route filter, derived from the location outside the core. -/
inductive Filter where
  | all : Filter
  | active : Filter
  | complete : Filter
deriving Repr, DecidableEq

/-- `isDeleting = canBeOptimistic(deleteFetcher) || (clearingTodos && todo.complete)`. -/
def isDeleting (deleteFetcher : Fetcher) (clearingTodos : Bool) (todo : Todo) : Bool :=
  canBeOptimistic deleteFetcher || (clearingTodos && todo.complete)

/-- `isToggling = canBeOptimistic(toggleFetcher)`. -/
def isToggling (toggleFetcher : Fetcher) : Bool :=
  canBeOptimistic toggleFetcher

/-- `optimisticComplete`: the item-level toggle submission wins; otherwise a
defined `togglingComplete` (the bulk toggle) applies; otherwise the
confirmed `todo.complete`. -/
def optimisticComplete (toggleFetcher : Fetcher) (tc : Option Bool) (todo : Todo) : Bool :=
  if isToggling toggleFetcher then fetcherComplete toggleFetcher
  else
    match tc with
    | some b => b
    | none => todo.complete

/-- The `shouldRender` predicate of `ListItem`. -/
def shouldRender (filter : Filter) (oc : Bool) : Bool :=
  filter == .all || (filter == .complete && oc) || (filter == .active && !oc)

/-- Whether `ListItem` renders a list entry at all:
`if (isDeleting || !shouldRender) return null`. -/
def listItemRenders (todo : Todo) (filter : Filter) (tc : Option Bool)
    (toggleFetcher deleteFetcher : Fetcher) (clearingTodos : Bool) : Bool :=
  !isDeleting deleteFetcher clearingTodos todo &&
    shouldRender filter (optimisticComplete toggleFetcher tc todo)

/-- The `disabled` prop of the toggle button in `ListItem`.  The item-level
fetchers are in scope in the component but the source expression is
`todo.id === "new"`. -/
def toggleButtonDisabled (toggleFetcher updateFetcher deleteFetcher : Fetcher)
    (todo : Todo) : Bool :=
  todo.id == "new"

/-- The `disabled` prop of the title edit input in `ListItem`
(`todo.id === "new"`). -/
def editInputDisabled (toggleFetcher updateFetcher deleteFetcher : Fetcher)
    (todo : Todo) : Bool :=
  todo.id == "new"

/-- The `disabled` prop of the delete button in `ListItem`
(`todo.id === "new"`). -/
def deleteButtonDisabled (toggleFetcher updateFetcher deleteFetcher : Fetcher)
    (todo : Todo) : Bool :=
  todo.id == "new"

/-! ### Server actions -/

/-- Models `s.includes(sub)` on the character lists of the two strings:
true when `needle` occurs contiguously in `hay`. -/
def charSeqStartsWith : List Char → List Char → Bool
  | [], _ => true
  | _ :: _, [] => false
  | a :: as, b :: bs => a == b && charSeqStartsWith as bs

/-- Helper for `jsIncludes`: does `needle` start at some position of `hay`? -/
def charSeqContains (needle : List Char) : List Char → Bool
  | [] => charSeqStartsWith needle []
  | b :: bs => charSeqStartsWith needle (b :: bs) || charSeqContains needle bs

/-- Models the JS expression `s.includes(sub)`. -/
def jsIncludes (s sub : String) : Bool :=
  charSeqContains sub.toList s.toList

/-- The JSON response of an action, or a thrown error (a failed
`invariant` or an explicit `throw`). -/
inductive ActionResult where
  | success : ActionResult
  | failure : String → ActionResult
  | thrown : String → ActionResult
deriving Repr, DecidableEq

/-- The row passed to `prisma.todo.create` by `createTodo`:
`{ id, complete: false, title, userId, createdAt: createdAt ? new Date(createdAt) : undefined }`. -/
structure TodoRow where
  id : String
  complete : Bool
  title : String
  userId : String
  createdAt : Option Nat
deriving Repr, DecidableEq

/-- The `createdAt` column value: `undefined` (database default) for an
empty string, the parsed date otherwise.  An unparseable string cannot
reach the insert (`validateCreatedAt` throws first). -/
def dateColumn : DateStr → Option Nat
  | .empty => none
  | .valid t => some t
  | .invalid => none

/-- Outcome of the `createTodo` action: the response sent back and the row
handed to `prisma.todo.create`, or `none` when the store was not called. -/
structure CreateOutcome where
  response : ActionResult
  inserted : Option TodoRow
deriving Repr, DecidableEq

/-- Source: `generalActions.createTodo` — reads title/id/createdAt from the
form data (invariant: all strings), rejects a title containing `"error"`,
throws on an invalid createdAt or empty id, rejects an empty title, and
only then inserts `{ id, complete: false, title, userId, createdAt }`. -/
def createTodo (fd : FormData) (userId : String) : CreateOutcome :=
  match fd.title, fd.id, fd.createdAt with
  | some title, some id, some createdAt =>
    if jsIncludes title "error" then
      { response := .failure "Todos cannot include the word \"error\"", inserted := none }
    else if (validateCreatedAt createdAt).isSome then
      { response := .thrown "We messed up the createdAt. Sorry", inserted := none }
    else if (validateId id).isSome then
      { response := .thrown "We messed up the id. Sorry", inserted := none }
    else
      match validateNewTodoTitle title with
      | some e => { response := .failure e, inserted := none }
      | none =>
        { response := .success,
          inserted := some
            { id := id, complete := false, title := title, userId := userId,
              createdAt := dateColumn createdAt } }
  | _, _, _ => { response := .thrown "invariant failed", inserted := none }

/-- Outcome of the `updateTodo` action: the response and the new title
written by `prisma.todo.update`, or `none` when the store was not called. -/
structure UpdateOutcome where
  response : ActionResult
  updated : Option String
deriving Repr, DecidableEq

/-- Source: `todoActions.updateTodo` — reads the title (invariant: string),
rejects a title containing `"error"`, rejects an empty title, and only then
updates the record with the new title. -/
def updateTodo (fd : FormData) : UpdateOutcome :=
  match fd.title with
  | some title =>
    if jsIncludes title "error" then
      { response := .failure "Todos cannot include the word \"error\"", updated := none }
    else
      match validateNewTodoTitle title with
      | some e => { response := .failure e, updated := none }
      | none => { response := .success, updated := some title }
  | none => { response := .thrown "invariant failed", updated := none }

/-! ### Helper lemmas about the stable sort -/

theorem insertByCreatedAt_perm (x : Todo) (l : List Todo) :
    List.Perm (insertByCreatedAt x l) (x :: l) := by
  induction l with
  | nil => simp [insertByCreatedAt]
  | cons y ys ih =>
    by_cases h : x.createdAt ≤ y.createdAt
    · simp [insertByCreatedAt, h]
    · simp only [insertByCreatedAt, if_neg h]
      exact (List.Perm.cons y ih).trans (List.Perm.swap x y ys)

theorem sortByCreatedAt_perm (l : List Todo) : List.Perm (sortByCreatedAt l) l := by
  induction l with
  | nil => simp [sortByCreatedAt]
  | cons x xs ih =>
    exact (insertByCreatedAt_perm x (sortByCreatedAt xs)).trans (List.Perm.cons x ih)

theorem mem_insertByCreatedAt {t x : Todo} {l : List Todo} :
    t ∈ insertByCreatedAt x l ↔ t = x ∨ t ∈ l := by
  rw [(insertByCreatedAt_perm x l).mem_iff, List.mem_cons]

theorem pairwise_insertByCreatedAt {x : Todo} {l : List Todo}
    (h : l.Pairwise (fun a b => a.createdAt ≤ b.createdAt)) :
    (insertByCreatedAt x l).Pairwise (fun a b => a.createdAt ≤ b.createdAt) := by
  induction l with
  | nil => simp [insertByCreatedAt]
  | cons y ys ih =>
    rw [List.pairwise_cons] at h
    by_cases hxy : x.createdAt ≤ y.createdAt
    · simp only [insertByCreatedAt, if_pos hxy]
      refine List.Pairwise.cons ?_ (List.Pairwise.cons h.1 h.2)
      intro z hz
      rcases List.mem_cons.mp hz with rfl | hz
      · exact hxy
      · exact le_trans hxy (h.1 z hz)
    · simp only [insertByCreatedAt, if_neg hxy]
      refine List.Pairwise.cons ?_ (ih h.2)
      intro z hz
      rcases mem_insertByCreatedAt.mp hz with rfl | hz
      · exact le_of_lt (lt_of_not_le hxy)
      · exact h.1 z hz

theorem pairwise_sortByCreatedAt (l : List Todo) :
    (sortByCreatedAt l).Pairwise (fun a b => a.createdAt ≤ b.createdAt) := by
  induction l with
  | nil => simp [sortByCreatedAt]
  | cons x xs ih => exact pairwise_insertByCreatedAt ih

theorem filter_insertByCreatedAt (c : Nat) (x : Todo) (l : List Todo) :
    (insertByCreatedAt x l).filter (fun t => t.createdAt == c) =
      (x :: l).filter (fun t => t.createdAt == c) := by
  induction l with
  | nil => simp [insertByCreatedAt]
  | cons y ys ih =>
    by_cases hxy : x.createdAt ≤ y.createdAt
    · simp [insertByCreatedAt, if_pos hxy]
    · have hyx : y.createdAt < x.createdAt := lt_of_not_le hxy
      simp only [insertByCreatedAt, if_neg hxy, List.filter_cons, ih]
      by_cases hy : y.createdAt = c
      · have hx : ¬ x.createdAt = c := by omega
        simp [hy, hx]
      · simp [hy]

theorem filter_sortByCreatedAt (c : Nat) (l : List Todo) :
    (sortByCreatedAt l).filter (fun t => t.createdAt == c) =
      l.filter (fun t => t.createdAt == c) := by
  induction l with
  | nil => rfl
  | cons x xs ih =>
    calc (sortByCreatedAt (x :: xs)).filter (fun t => t.createdAt == c)
        = (x :: sortByCreatedAt xs).filter (fun t => t.createdAt == c) :=
          filter_insertByCreatedAt c x _
      _ = (x :: xs).filter (fun t => t.createdAt == c) := by
          simp [List.filter_cons, ih]

/-! ### Helper lemmas about the toggle loop -/

/-- The cumulative effect of the toggle loop on a single item. -/
def toggleOutcome (fs : List Fetcher) (t : Todo) : Todo :=
  fs.foldl
    (fun u f => if some u.id == fetcherTodoId f then { u with complete := fetcherComplete f } else u)
    t

theorem toggleOutcome_id (fs : List Fetcher) (t : Todo) : (toggleOutcome fs t).id = t.id := by
  induction fs generalizing t with
  | nil => rfl
  | cons f fs ih =>
    show (toggleOutcome fs _).id = t.id
    by_cases h : some t.id == fetcherTodoId f
    · rw [ih]; simp [h]
    · rw [ih]; simp [h]

theorem toggleOutcome_title (fs : List Fetcher) (t : Todo) :
    (toggleOutcome fs t).title = t.title := by
  induction fs generalizing t with
  | nil => rfl
  | cons f fs ih =>
    show (toggleOutcome fs _).title = t.title
    by_cases h : some t.id == fetcherTodoId f
    · rw [ih]; simp [h]
    · rw [ih]; simp [h]

theorem toggleOutcome_createdAt (fs : List Fetcher) (t : Todo) :
    (toggleOutcome fs t).createdAt = t.createdAt := by
  induction fs generalizing t with
  | nil => rfl
  | cons f fs ih =>
    show (toggleOutcome fs _).createdAt = t.createdAt
    by_cases h : some t.id == fetcherTodoId f
    · rw [ih]; simp [h]
    · rw [ih]; simp [h]

/-- The toggle loop is a per-item map of `toggleOutcome`. -/
theorem applyToggles_eq_map (fs : List Fetcher) (l : List Todo) :
    applyToggles fs l = l.map (toggleOutcome fs) := by
  induction fs generalizing l with
  | nil =>
    show l = l.map (fun t => t)
    rw [List.map_id']
  | cons f fs ih =>
    show applyToggles fs (applyToggle f l) = _
    rw [ih, applyToggle, List.map_map]
    rfl

/-- The last registered toggle targeting an item decides its `complete`
value: `toggleOutcome` equals the update by the first match in the
reversed fetcher list (or the identity when no toggle targets the item). -/
theorem toggleOutcome_eq_last (fs : List Fetcher) (t : Todo) :
    toggleOutcome fs t =
      match fs.reverse.find? (fun f => some t.id == fetcherTodoId f) with
      | some f => { t with complete := fetcherComplete f }
      | none => t := by
  induction fs using List.reverseRecOn with
  | nil => rfl
  | append_singleton fs f ih =>
    have hfold : toggleOutcome (fs ++ [f]) t =
        (if some (toggleOutcome fs t).id == fetcherTodoId f then
          { toggleOutcome fs t with complete := fetcherComplete f }
        else toggleOutcome fs t) := by
      rw [toggleOutcome, List.foldl_append]
      rfl
    rw [hfold, List.reverse_append]
    by_cases h : some t.id == fetcherTodoId f
    · rw [toggleOutcome_id, if_pos h]
      have : (List.reverse [f] ++ fs.reverse).find? (fun f => some t.id == fetcherTodoId f) =
          some f := by
        simp [List.find?, h]
      rw [this]
      have h1 := toggleOutcome_id fs t
      have h2 := toggleOutcome_title fs t
      have h3 := toggleOutcome_createdAt fs t
      simp [Todo.mk.injEq, h1, h2, h3]
    · rw [toggleOutcome_id, if_neg h, ih]
      have : (List.reverse [f] ++ fs.reverse).find? (fun f => some t.id == fetcherTodoId f) =
          fs.reverse.find? (fun f => some t.id == fetcherTodoId f) := by
        simp [List.find?, Bool.of_not_eq_true h]
      rw [this]

/-! ### Helper lemmas about the delete loop -/

theorem mem_of_mem_applyDeletes {ds : List Fetcher} {l : List Todo} {t : Todo}
    (h : t ∈ applyDeletes ds l) : t ∈ l := by
  induction ds generalizing l with
  | nil => exact h
  | cons d ds ih =>
    have : t ∈ l.filter (fun t => !(some t.id == fetcherTodoId d)) := ih h
    exact List.mem_of_mem_filter this

/-- An item surviving the delete loop is not targeted by any of the
delete fetchers. -/
theorem applyDeletes_not_targeted {ds : List Fetcher} {l : List Todo} {t : Todo} {f : Fetcher}
    (hf : f ∈ ds) (h : t ∈ applyDeletes ds l) : ¬ some t.id = fetcherTodoId f := by
  induction ds generalizing l with
  | nil => cases hf
  | cons d ds ih =>
    rcases List.mem_cons.mp hf with rfl | hf
    · have hmem : t ∈ l.filter (fun t => !(some t.id == fetcherTodoId f)) :=
        mem_of_mem_applyDeletes h
      have := List.of_mem_filter hmem
      simp at this
      simpa using this
    · exact ih hf h

/-! ### Helper lemmas about the optimistic creates -/

theorem synthesizeCreate_eq_some {todos : List Todo} {f : Fetcher} {t : Todo}
    (h : synthesizeCreate todos f = some t) :
    t.complete = false ∧ fetcherId f = some t.id ∧ ∀ c ∈ todos, c.id ≠ t.id := by
  rw [synthesizeCreate] at h
  rcases hid : f.submission.bind FormData.id with _ | id <;> rw [hid] at h
  · cases h
  rcases hti : f.submission.bind FormData.title with _ | title <;> rw [hti] at h
  · cases h
  rcases hca : f.submission.bind FormData.createdAt with _ | createdAt <;> rw [hca] at h
  · cases h
  simp only at h
  split at h
  case isTrue hcond =>
    cases h
    refine ⟨rfl, hid, ?_⟩
    have hall := (Bool.and_eq_true _ _).mp ((Bool.and_eq_true _ _).mp
      ((Bool.and_eq_true _ _).mp hcond).1).1
    intro c hc
    have := List.all_eq_true.mp hall.1 c hc
    simpa using this
  case isFalse => cases h

theorem mem_optimisticNewTodos {todos : List Todo} {fs : List Fetcher} {t : Todo}
    (h : t ∈ optimisticNewTodos todos fs) :
    t.complete = false ∧ ∀ c ∈ todos, c.id ≠ t.id := by
  rcases List.mem_filterMap.mp h with ⟨f, _, hsyn⟩
  have := synthesizeCreate_eq_some hsyn
  exact ⟨this.1, this.2.2⟩

/-- When the ids carried by the pending create fetchers are pairwise
distinct, the synthesized optimistic todos have pairwise distinct ids. -/
theorem nodup_filterMap_synthesizeCreate (todos : List Todo) (gs : List Fetcher)
    (h : (gs.map fetcherId).Nodup) :
    ((gs.filterMap (synthesizeCreate todos)).map Todo.id).Nodup := by
  induction gs with
  | nil => simp
  | cons g gs ih =>
    rw [List.map_cons, List.nodup_cons] at h
    rcases hsyn : synthesizeCreate todos g with _ | t
    · rw [List.filterMap_cons_none hsyn]
      exact ih h.2
    · rw [List.filterMap_cons_some hsyn, List.map_cons, List.nodup_cons]
      refine ⟨?_, ih h.2⟩
      intro hmem
      rcases List.mem_map.mp hmem with ⟨t', ht'mem, ht'id⟩
      rcases List.mem_filterMap.mp ht'mem with ⟨g', hg'mem, hg'syn⟩
      have e1 := (synthesizeCreate_eq_some hsyn).2.1
      have e2 := (synthesizeCreate_eq_some hg'syn).2.1
      have : fetcherId g = fetcherId g' := by rw [e1, e2, ht'id]
      exact h.1 (this ▸ List.mem_map_of_mem fetcherId hg'mem)

/-! ### Helper lemmas about dropping non-optimistic fetchers -/

theorem optimisticFetchers_drop {f : Fetcher} (h : canBeOptimistic f = false)
    (fs1 fs2 : List Fetcher) :
    optimisticFetchers (fs1 ++ f :: fs2) = optimisticFetchers (fs1 ++ fs2) := by
  simp [optimisticFetchers, List.filter_append, List.filter_cons, h]

theorem intentFetchers_drop (name : String) {f : Fetcher} (h : canBeOptimistic f = false)
    (fs1 fs2 : List Fetcher) :
    intentFetchers name (fs1 ++ f :: fs2) = intentFetchers name (fs1 ++ fs2) := by
  rw [intentFetchers, intentFetchers, optimisticFetchers_drop h]

/-! ### Concrete fixtures for witnesses and counterexamples -/

/-- A confirmed item with id `a`. -/
def todoA : Todo :=
  { id := "a", title := "buy milk", complete := false, createdAt := 3 }

/-- A confirmed item with id `b`. -/
def todoB : Todo :=
  { id := "b", title := "walk dog", complete := false, createdAt := 4 }

/-- A form data for a `toggleTodo` submission. -/
def toggleForm (target : String) (value : String) : FormData :=
  { intent := some "toggleTodo", todoId := some target, complete := some value,
    title := none, id := none, createdAt := none }

/-- A pending (submitting) `toggleTodo` fetcher. -/
def pendingToggle (target : String) (value : String) : Fetcher :=
  { state := .submitting, data := .missing, submission := some (toggleForm target value) }

/-- A pending (submitting) `deleteTodo` fetcher. -/
def pendingDelete (target : String) : Fetcher :=
  { state := .submitting, data := .missing,
    submission := some
      { intent := some "deleteTodo", todoId := some target, complete := none,
        title := none, id := none, createdAt := none } }

/-- A form data for a `createTodo` submission. -/
def createForm (id : String) (title : String) (createdAt : DateStr) : FormData :=
  { intent := some "createTodo", todoId := none, complete := none,
    title := some title, id := some id, createdAt := some createdAt }

/-- A pending (submitting) `createTodo` fetcher. -/
def pendingCreate (id : String) (title : String) (createdAt : DateStr) : Fetcher :=
  { state := .submitting, data := .missing, submission := some (createForm id title createdAt) }

/-- A pending (submitting) `toggleAllTodos` fetcher. -/
def pendingToggleAll (value : String) : Fetcher :=
  { state := .submitting, data := .missing,
    submission := some
      { intent := some "toggleAllTodos", todoId := none, complete := some value,
        title := none, id := none, createdAt := none } }

/-- A fetcher whose request has failed: the error response was received
(state back to loading, data an error payload). -/
def failedCreate (id : String) (title : String) (createdAt : DateStr) (msg : String) : Fetcher :=
  { state := .loading, data := .failure msg, submission := some (createForm id title createdAt) }

/-! ### Claim theorems -/

/-- Claim C1: for every confirmed item and every in-flight set containing
both an optimistic ToggleOne and an optimistic DeleteOne targeting that
item id, the reconciled list excludes the item — the delete loop removes it
before the toggle loop runs and a toggle is a pure map that cannot re-add
it, regardless of the registration order of the two intents; moreover at
the ListItem level an optimistic delete suppresses rendering outright. -/
theorem claim1_delete_wins (todos : List Todo) (clearF tAllF : Fetcher) (fs : List Fetcher)
    (a : String)
    (hconf : a ∈ todos.map Todo.id)
    (hdel : ∃ f ∈ fs, canBeOptimistic f = true ∧ fetcherIntent f = some "deleteTodo" ∧
      fetcherTodoId f = some a)
    (htog : ∃ f ∈ fs, canBeOptimistic f = true ∧ fetcherIntent f = some "toggleTodo" ∧
      fetcherTodoId f = some a) :
    (∀ t ∈ optimisticTodos todos clearF tAllF fs, t.id ≠ a) ∧
    (∀ (todo : Todo) (filt : Filter) (tc : Option Bool) (togF delF : Fetcher) (clearing : Bool),
      canBeOptimistic delF = true → listItemRenders todo filt tc togF delF clearing = false) := by
  obtain ⟨f, hfmem, hopt, hint, htid⟩ := hdel
  constructor
  · intro t ht
    simp only [optimisticTodos] at ht
    rcases List.mem_append.mp ht with hmain | hnew
    · rw [applyToggles_eq_map] at hmain
      rcases List.mem_map.mp hmain with ⟨t0, ht0, rfl⟩
      rw [toggleOutcome_id]
      have hfdel : f ∈ deleteFetchers fs := by
        simp [deleteFetchers, intentFetchers, optimisticFetchers, List.mem_filter, hopt,
          hint, hfmem]
      have hnot := applyDeletes_not_targeted hfdel ht0
      intro hEq
      exact hnot (by rw [hEq, htid])
    · obtain ⟨c, hcmem, hcid⟩ := List.mem_map.mp hconf
      intro hEq
      exact (mem_optimisticNewTodos hnew).2 c hcmem (hcid.trans hEq.symm)
  · intro todo filt tc togF delF clearing hopt'
    simp [listItemRenders, isDeleting, hopt']

/-- Witness for C1: one confirmed item `a`, a pending toggle and a pending
delete on `a` registered toggle-first; the reconciled list excludes `a`. -/
theorem claim1_witness :
    "a" ∈ ([todoA].map Todo.id) ∧
    (∀ t ∈ optimisticTodos [todoA] idleFetcher idleFetcher
      [pendingToggle "a" "true", pendingDelete "a"], t.id ≠ "a") := by
  refine ⟨by decide, ?_⟩
  exact (claim1_delete_wins [todoA] idleFetcher idleFetcher
    [pendingToggle "a" "true", pendingDelete "a"] "a" (by decide)
    ⟨pendingDelete "a", by decide, by decide, by decide, by decide⟩
    ⟨pendingToggle "a" "true", by decide, by decide, by decide, by decide⟩).1

/-- Claim C2: with an optimistic ToggleAll carrying value `c` and a single
optimistic ToggleOne on id `b` carrying value `cb` pending simultaneously,
every reconciled item gets `complete = c` except the item `b`, which gets
`cb`; at the ListItem level the per-item toggle submission likewise
overrides the bulk value. -/
theorem claim2_per_item_overrides_bulk (todos : List Todo) (clearF tAllF tf : Fetcher)
    (fs : List Fetcher) (b : String) (c cb : Bool)
    (hclear : canBeOptimistic clearF = false)
    (hta : canBeOptimistic tAllF = true)
    (hc : fetcherComplete tAllF = c)
    (hdel : deleteFetchers fs = [])
    (hcreate : createFetchers fs = [])
    (htog : toggleFetchers fs = [tf])
    (htfid : fetcherTodoId tf = some b)
    (htfc : fetcherComplete tf = cb) :
    (∀ t ∈ optimisticTodos todos clearF tAllF fs,
      t.complete = if t.id = b then cb else c) ∧
    (∀ (todo : Todo) (tc : Option Bool), optimisticComplete tf tc todo = cb) := by
  have htf_opt : canBeOptimistic tf = true := by
    have htf_mem : tf ∈ toggleFetchers fs := by rw [htog]; exact List.mem_singleton_self tf
    have := (List.mem_filter.mp htf_mem).1
    exact (List.mem_filter.mp this).2
  constructor
  · intro t ht
    simp only [optimisticTodos, optimisticNewTodos, hcreate, List.filterMap_nil,
      List.append_nil, htog, hdel, applyClear, hclear, Bool.false_eq_true, if_false,
      togglingComplete, hta, if_true, hc, applyToggleAll] at ht
    have ht' : t ∈ applyToggle tf (todos.map fun u => { u with complete := c }) := ht
    rw [applyToggle] at ht'
    rcases List.mem_map.mp ht' with ⟨u, hu, rfl⟩
    rcases List.mem_map.mp hu with ⟨t0, _, rfl⟩
    by_cases hb : t0.id = b
    · simp [htfid, htfc, hb]
    · simp [htfid, htfc, hb]
  · intro todo tc
    simp [optimisticComplete, isToggling, htf_opt, htfc]

/-- Witness for C2: confirmed `[a false, b false]`, pending ToggleAll(true)
plus pending ToggleOne(b, false); reconciled `a` is complete and `b` is
not. -/
theorem claim2_witness :
    canBeOptimistic (pendingToggleAll "true") = true ∧
    (∀ t ∈ optimisticTodos [todoA, todoB] idleFetcher (pendingToggleAll "true")
      [pendingToggle "b" "false"], t.complete = if t.id = "b" then false else true) := by
  refine ⟨by decide, ?_⟩
  exact (claim2_per_item_overrides_bulk [todoA, todoB] idleFetcher (pendingToggleAll "true")
    (pendingToggle "b" "false") [pendingToggle "b" "false"] "b" true false
    (by decide) (by decide) (by decide) (by decide) (by decide) (by decide)
    (by decide) (by decide)).1

/-- Claim C3: an optimistic Create is synthesized only when its id is
absent from the confirmed list; consequently, when the confirmed ids are
unique (database key) and the pending create ids are pairwise distinct
(client-generated collision-resistant ids), the rendered reconciled list
has exactly one item per id — even while a Create whose id the server has
already confirmed is still pending. -/
theorem claim3_create_dedup (todos : List Todo) (fs : List Fetcher)
    (hids : (todos.map Todo.id).Nodup)
    (hnew : ((createFetchers fs).map fetcherId).Nodup) :
    (∀ t ∈ optimisticNewTodos todos fs, ∀ c ∈ todos, c.id ≠ t.id) ∧
    ((todosToRender todos fs).map Todo.id).Nodup := by
  constructor
  · intro t ht
    exact (mem_optimisticNewTodos ht).2
  · have hnodupNew := nodup_filterMap_synthesizeCreate todos (createFetchers fs) hnew
    have happ : ((todos ++ optimisticNewTodos todos fs).map Todo.id).Nodup := by
      rw [List.map_append, List.nodup_append]
      refine ⟨hids, hnodupNew, ?_⟩
      intro x hx hx'
      rcases List.mem_map.mp hx with ⟨c, hcmem, rfl⟩
      rcases List.mem_map.mp hx' with ⟨t, htmem, hid⟩
      exact (mem_optimisticNewTodos htmem).2 c hcmem hid.symm
    have hperm : List.Perm ((todosToRender todos fs).map Todo.id)
        ((todos ++ optimisticNewTodos todos fs).map Todo.id) :=
      List.Perm.map Todo.id (sortByCreatedAt_perm _)
    exact hperm.nodup_iff.mpr happ

/-- Witness for C3: confirmed list already contains id `x`; a pending
create with id `x` is pending; the rendered list has one item per id. -/
theorem claim3_witness :
    (([{ id := "x", title := "t", complete := false, createdAt := 1 }] : List Todo).map
      Todo.id).Nodup ∧
    ((todosToRender [{ id := "x", title := "t", complete := false, createdAt := 1 }]
      [pendingCreate "x" "t" (DateStr.valid 1)]).map Todo.id).Nodup := by
  refine ⟨by decide, ?_⟩
  exact (claim3_create_dedup [{ id := "x", title := "t", complete := false, createdAt := 1 }]
    [pendingCreate "x" "t" (DateStr.valid 1)] (by decide) (by decide)).2

/-- Claim C6: an intent is applied exactly when `canBeOptimistic` holds —
while submitting, or while loading with a success response not yet folded
into the confirmed snapshot; a fetcher whose response is an error (Failed)
is never applied: removing it from the in-flight set leaves both the
optimistic list and the rendered list unchanged, so the recompute reflects
only confirmed items plus still-optimistic intents. -/
theorem claim6_failed_not_applied (todos : List Todo) (clearF tAllF : Fetcher)
    (fs1 fs2 : List Fetcher) (f : Fetcher) (msg : String)
    (hstate : f.state = .loading) (hdata : f.data = .failure msg) :
    canBeOptimistic f = false ∧
    (∀ g : Fetcher, canBeOptimistic g = true ↔
      (g.state = .submitting ∨ (g.state = .loading ∧ g.data.isSuccess = true))) ∧
    optimisticTodos todos clearF tAllF (fs1 ++ f :: fs2) =
      optimisticTodos todos clearF tAllF (fs1 ++ fs2) ∧
    todosToRender todos (fs1 ++ f :: fs2) = todosToRender todos (fs1 ++ fs2) := by
  have hopt : canBeOptimistic f = false := by
    simp [canBeOptimistic, hstate, hdata, FetcherData.isSuccess]
  have hd := intentFetchers_drop "deleteTodo" hopt fs1 fs2
  have htg := intentFetchers_drop "toggleTodo" hopt fs1 fs2
  have hc := intentFetchers_drop "createTodo" hopt fs1 fs2
  refine ⟨hopt, ?_, ?_, ?_⟩
  · intro g
    simp [canBeOptimistic, Bool.or_eq_true, Bool.and_eq_true]
  · simp only [optimisticTodos, optimisticNewTodos, deleteFetchers, toggleFetchers,
      createFetchers, hd, htg, hc]
  · simp only [todosToRender, optimisticNewTodos, createFetchers, hc]

/-- Witness for C6: a failed create (error response received) contributes
nothing: the reconciled list equals the one computed without it. -/
theorem claim6_witness :
    (failedCreate "c9" "oops error" (DateStr.valid 2) "boom").state = FetcherState.loading ∧
    optimisticTodos [todoA] idleFetcher idleFetcher
        ([] ++ failedCreate "c9" "oops error" (DateStr.valid 2) "boom" :: []) =
      optimisticTodos [todoA] idleFetcher idleFetcher ([] ++ []) := by
  refine ⟨by decide, ?_⟩
  exact (claim6_failed_not_applied [todoA] idleFetcher idleFetcher [] []
    (failedCreate "c9" "oops error" (DateStr.valid 2) "boom") "boom"
    (by decide) (by decide)).2.2.1

/-- Claim C7: the rendered reconciled list is sorted by `createdAt`
ascending, and the sort is stable: for every timestamp the items carrying
it appear in the same relative order as in the unsorted concatenation of
confirmed items and pending creates (submission order).  The list is a
pure function of the in-flight set, so network completion order cannot
influence it. -/
theorem claim7_sorted_stable (todos : List Todo) (fs : List Fetcher) :
    (todosToRender todos fs).Pairwise (fun a b => a.createdAt ≤ b.createdAt) ∧
    ∀ c : Nat, (todosToRender todos fs).filter (fun t => t.createdAt == c) =
      (todos ++ optimisticNewTodos todos fs).filter (fun t => t.createdAt == c) :=
  ⟨pairwise_sortByCreatedAt _, fun c => filter_sortByCreatedAt c _⟩

/-- Claim C8: among concurrently pending ToggleOne intents on the same id,
the most recently registered one wins: if the last optimistic toggle
targeting id `a` carries value `v`, the reconciled item `a` has
`complete = v`. -/
theorem claim8_last_write_wins (todos : List Todo) (clearF tAllF : Fetcher) (fs : List Fetcher)
    (a : String) (f0 : Fetcher) (v : Bool)
    (hconf : a ∈ todos.map Todo.id)
    (hlast : (toggleFetchers fs).reverse.find? (fun f => some a == fetcherTodoId f) = some f0)
    (hv : fetcherComplete f0 = v) :
    ∀ t ∈ optimisticTodos todos clearF tAllF fs, t.id = a → t.complete = v := by
  intro t ht hta
  simp only [optimisticTodos] at ht
  rcases List.mem_append.mp ht with hmain | hnew
  · rw [applyToggles_eq_map] at hmain
    rcases List.mem_map.mp hmain with ⟨t0, ht0, rfl⟩
    have hid : t0.id = a := by rw [← toggleOutcome_id (toggleFetchers fs) t0]; exact hta
    rw [toggleOutcome_eq_last]
    simp only [hid, hlast, hv]
  · exfalso
    obtain ⟨c, hcmem, hcid⟩ := List.mem_map.mp hconf
    exact (mem_optimisticNewTodos hnew).2 c hcmem (hcid.trans hta.symm)

/-- Witness for C8: two pending toggles on `a` registered `true` then
`false`; the reconciled item `a` is not complete. -/
theorem claim8_witness :
    (toggleFetchers [pendingToggle "a" "true", pendingToggle "a" "false"]).reverse.find?
        (fun f => some "a" == fetcherTodoId f) = some (pendingToggle "a" "false") ∧
    (∀ t ∈ optimisticTodos [todoA] idleFetcher idleFetcher
      [pendingToggle "a" "true", pendingToggle "a" "false"],
      t.id = "a" → t.complete = false) := by
  refine ⟨by decide, ?_⟩
  exact claim8_last_write_wins [todoA] idleFetcher idleFetcher
    [pendingToggle "a" "true", pendingToggle "a" "false"] "a" (pendingToggle "a" "false")
    false (by decide) (by decide) (by decide)

/-- Counterexample to C4 as stated: the forbidden-word rule is NOT enforced
client-side — while the create submission with title `buy error milk` is
pending it IS optimistic, its step-6 guard passes (step 6 validates only
id, non-empty title and createdAt, never the forbidden word), and the
reconciled list gains the synthesized item, so the list is not left
unchanged at every point of the intent lifecycle. -/
theorem claim4_counterexample :
    jsIncludes "buy error milk" "error" = true ∧
    canBeOptimistic (pendingCreate "c1" "buy error milk" (DateStr.valid 5)) = true ∧
    todosToRender [] [pendingCreate "c1" "buy error milk" (DateStr.valid 5)] =
      [{ id := "c1", title := "buy error milk", complete := false, createdAt := 5 }] := by
  decide

/-- Claim C4 (amended): a Create whose title contains the substring `error`
never reaches the store insert — the server action rejects it before
`prisma.todo.create` with an error message referencing the forbidden word;
the rule is enforced server-side only, so the synthesized item does appear
in the reconciled list while the intent is submitting, and once the error
response arrives (Failed) the intent is no longer optimistic and the
reconciled list reverts to the confirmed items. -/
theorem claim4_server_rejects (fd : FormData) (userId title i : String) (d : DateStr)
    (ht : fd.title = some title) (hid : fd.id = some i) (hca : fd.createdAt = some d)
    (he : jsIncludes title "error" = true) :
    (createTodo fd userId).inserted = none ∧
    (createTodo fd userId).response =
      ActionResult.failure "Todos cannot include the word \"error\"" ∧
    ∀ (ts : List Todo) (g : Fetcher) (msg : String),
      g.state = FetcherState.loading → g.data = FetcherData.failure msg →
      optimisticTodos ts idleFetcher idleFetcher [g] = ts ∧
      todosToRender ts [g] = sortByCreatedAt ts := by
  refine ⟨?_, ?_, ?_⟩
  · simp [createTodo, ht, hid, hca, he]
  · simp [createTodo, ht, hid, hca, he]
  · intro ts g msg h1 h2
    have hopt : canBeOptimistic g = false := by
      simp [canBeOptimistic, h1, h2, FetcherData.isSuccess]
    have h0 : canBeOptimistic idleFetcher = false := by decide
    constructor
    · simp [optimisticTodos, optimisticNewTodos, deleteFetchers, toggleFetchers,
        createFetchers, intentFetchers, optimisticFetchers, applyClear, togglingComplete,
        applyToggleAll, applyDeletes, applyToggles, hopt, h0, List.filter_cons]
    · simp [todosToRender, optimisticNewTodos, createFetchers, intentFetchers,
        optimisticFetchers, hopt, List.filter_cons]

/-- Witness for the amended C4: the concrete `buy error milk` submission is
rejected with the forbidden-word message and the store is not called. -/
theorem claim4_witness :
    (createForm "c1" "buy error milk" (DateStr.valid 5)).title = some "buy error milk" ∧
    (createTodo (createForm "c1" "buy error milk" (DateStr.valid 5)) "u1").inserted = none := by
  refine ⟨by decide, ?_⟩
  exact (claim4_server_rejects (createForm "c1" "buy error milk" (DateStr.valid 5)) "u1"
    "buy error milk" "c1" (DateStr.valid 5) (by decide) (by decide) (by decide)
    (by decide)).1

/-- Counterexample to C5 as stated: `validateNewTodoTitle` is a bare
truthiness check with no trimming, so the whitespace-only title made of a
single space — empty after trimming — passes validation and both the
create insert and the update write ARE called. -/
theorem claim5_counterexample :
    " ".toList.all Char.isWhitespace = true ∧
    validateNewTodoTitle " " = none ∧
    (createTodo (createForm "c2" " " (DateStr.valid 7)) "u1").response =
      ActionResult.success ∧
    (createTodo (createForm "c2" " " (DateStr.valid 7)) "u1").inserted =
      some { id := "c2", complete := false, title := " ", userId := "u1",
             createdAt := some 7 } ∧
    (updateTodo { intent := some "updateTodo", todoId := some "a", complete := none,
                  title := some " ", id := none, createdAt := none }).updated = some " " := by
  decide

/-- Claim C5 (amended): only a title that is literally the empty string
fails validation: such a createTodo or updateTodo submission gets the
`Todo title required` error and the store create/update is never called.
The validator does not trim, so a whitespace-only title passes and reaches
the store. -/
theorem claim5_empty_title_rejected (fd gd : FormData) (userId i : String) (d : DateStr)
    (ht : fd.title = some "") (hid : fd.id = some i) (hi : validateId i = none)
    (hca : fd.createdAt = some d) (hd : validateCreatedAt d = none)
    (hgt : gd.title = some "") :
    (createTodo fd userId).response = ActionResult.failure "Todo title required" ∧
    (createTodo fd userId).inserted = none ∧
    (updateTodo gd).response = ActionResult.failure "Todo title required" ∧
    (updateTodo gd).updated = none := by
  have hinc : jsIncludes "" "error" = false := by decide
  have hv : validateNewTodoTitle "" = some "Todo title required" := by decide
  refine ⟨?_, ?_, ?_, ?_⟩
  · simp [createTodo, ht, hid, hca, hinc, hi, hd, hv]
  · simp [createTodo, ht, hid, hca, hinc, hi, hd, hv]
  · simp [updateTodo, hgt, hinc, hv]
  · simp [updateTodo, hgt, hinc, hv]

/-- Witness for the amended C5: a concrete empty-title create is rejected
without reaching the store. -/
theorem claim5_witness :
    (createForm "c3" "" (DateStr.valid 9)).title = some "" ∧
    (createTodo (createForm "c3" "" (DateStr.valid 9)) "u1").inserted = none := by
  refine ⟨by decide, ?_⟩
  exact (claim5_empty_title_rejected (createForm "c3" "" (DateStr.valid 9))
    (createForm "c3" "" (DateStr.valid 9)) "u1" "c3" (DateStr.valid 9)
    (by decide) (by decide) (by decide) (by decide) (by decide) (by decide)).2.1

/-- Counterexample to C9 as stated: item `a` has its own pending toggle and
pending delete intents, yet none of its three controls is disabled — the
`disabled` props test only `todo.id === "new"`. -/
theorem claim9_counterexample :
    canBeOptimistic (pendingToggle "a" "true") = true ∧
    fetcherTodoId (pendingToggle "a" "true") = some "a" ∧
    canBeOptimistic (pendingDelete "a") = true ∧
    fetcherTodoId (pendingDelete "a") = some "a" ∧
    toggleButtonDisabled (pendingToggle "a" "true") idleFetcher (pendingDelete "a") todoA
      = false ∧
    editInputDisabled (pendingToggle "a" "true") idleFetcher (pendingDelete "a") todoA
      = false ∧
    deleteButtonDisabled (pendingToggle "a" "true") idleFetcher (pendingDelete "a") todoA
      = false := by
  decide

/-- Claim C9 (amended): the per-item controls are disabled exactly when the
item id is the sentinel string `new`, independently of the item fetchers;
since this route assigns real generated ids, a still-settling mutation does
not disable the item controls. -/
theorem claim9_disabled_sentinel_only (tf uf df : Fetcher) (t : Todo) :
    toggleButtonDisabled tf uf df t = (t.id == "new") ∧
    editInputDisabled tf uf df t = (t.id == "new") ∧
    deleteButtonDisabled tf uf df t = (t.id == "new") :=
  ⟨rfl, rfl, rfl⟩

/-- Claim C10: every item produced by a Create intent enters the list as
active — the optimistic synthesis hard-codes `complete: false` and the
server insert hard-codes `complete: false`; the intent carries no
completion payload. -/
theorem claim10_creates_enter_active :
    (∀ (todos : List Todo) (fs : List Fetcher) (t : Todo),
      t ∈ optimisticNewTodos todos fs → t.complete = false) ∧
    (∀ (fd : FormData) (userId : String) (row : TodoRow),
      (createTodo fd userId).inserted = some row → row.complete = false) := by
  constructor
  · intro todos fs t ht
    exact (mem_optimisticNewTodos ht).1
  · intro fd userId row h
    rcases hft : fd.title with _ | title
    · simp [createTodo, hft] at h
    rcases hfi : fd.id with _ | i
    · simp [createTodo, hft, hfi] at h
    rcases hfc : fd.createdAt with _ | d
    · simp [createTodo, hft, hfi, hfc] at h
    simp only [createTodo, hft, hfi, hfc] at h
    split_ifs at h with h1 h2 h3
    rcases hv : validateNewTodoTitle title with _ | e
    · rw [hv] at h
      simp at h
      rw [← h]
    · rw [hv] at h
      simp at h

/-- Witness for C10: a concrete pending create synthesizes an active item,
and a concrete insert row is active. -/
theorem claim10_witness :
    ({ id := "c4", title := "new todo", complete := false, createdAt := 11 } : Todo) ∈
      optimisticNewTodos [] [pendingCreate "c4" "new todo" (DateStr.valid 11)] ∧
    ({ id := "c4", title := "new todo", complete := false, createdAt := 11 } : Todo).complete
      = false ∧
    ({ id := "c4", complete := false, title := "new todo", userId := "u1",
       createdAt := some 11 } : TodoRow).complete = false := by
  refine ⟨by decide, ?_, ?_⟩
  · exact claim10_creates_enter_active.1 [] [pendingCreate "c4" "new todo" (DateStr.valid 11)]
      _ (by decide)
  · exact claim10_creates_enter_active.2 (createForm "c4" "new todo" (DateStr.valid 11)) "u1"
      _ (by decide)

end TodoApp
